import Mathlib

/-!
Verification of the Innovator core (agent router, stage pipeline, retry
policy) against its specification.

The development shallowly embeds the Python sources:

* `innovator/agent_router.py`  — worker routing with confidence scoring;
* `innovator/animation_agent.py` — the staged animation pipeline;
* `innovator/retry.py` — the exponential-backoff retry wrapper.

Modelling conventions:

* Python floats are modelled as exact rationals (`ℚ`).  Every numeric
  value the theorems below touch (confidences `k/8`, thresholds such as
  `0.65`, delays `1.0, 2.0, 4.0, 60.0`) is a small decimal or dyadic
  rational on which double-precision arithmetic is exact, so the
  rational model agrees with the Python runtime on them.
* Python dictionaries are modelled as association lists in insertion
  order (CPython dicts preserve insertion order; `d[k] = v` overwrites
  in place, keeping the original position).
* A Python function that may raise is modelled with `Except`/`Option`;
  an exception is identified by its message (or by a dedicated error
  datatype where the structure matters).
* In-place mutation of the shared context object is modelled by explicit
  state passing: a stage maps a context to the context as mutated when
  the stage returned or raised, paired with `Option` of the raised
  error.
-/

namespace Innovator

/-! ## Agent router data model (`innovator/agent_router.py`) -/

/-- `AgentType` enum: the closed set of worker kinds. -/
inductive AgentType where
  | PLANNER
  | DIRECTOR
  | ANIMATION
  | FILM
  | GAME
  | RENDER
  | END
  deriving DecidableEq, Repr

/-- The `str` value of each enum member. -/
def AgentType.value : AgentType → String
  | .PLANNER => "planner"
  | .DIRECTOR => "director"
  | .ANIMATION => "animation"
  | .FILM => "film"
  | .GAME => "game"
  | .RENDER => "render"
  | .END => "end"

/-- `dict.get(k, default)` on a string-valued mapping modelled as an
association list (first binding wins; Python dicts have unique keys). -/
def dictGet (d : List (String × String)) (k : String) (dflt : String) : String :=
  match d.lookup k with
  | some v => v
  | none => dflt

/-- `Task`: the unit of work routed between agents.  The payload is
`Dict[str, Any]`; the router and the built-in scorers only ever read
string values from it (`payload.get("prompt", "")`), so values are
modelled as strings. -/
structure Task where
  task_id : String
  task_type : String
  payload : List (String × String)
  stage : Option String := none

/-- `AgentRouteResult`: one worker's self-assessed fitness. -/
structure AgentRouteResult where
  agent_name : AgentType
  confidence : ℚ
  reason : String
  fallback_used : Bool := false
  deriving DecidableEq, Repr

/-- `RoutingDecision`: where to send the task next. -/
structure RoutingDecision where
  next_agents : List AgentType
  reason : String
  deriving DecidableEq, Repr

/-- The side context passed to `route` (e.g. carrying `review_result`). -/
abbrev SideCtx := List (String × String)

/-- A registered scoring function `scoring_fn(task, context) -> (score, reason)`.
It may raise; a raised exception is modelled as `Except.error` carrying
the exception's message (`str(e)`). -/
abbrev ScoringFn := Task → SideCtx → Except String (ℚ × String)

/-- Exceptions escaping the router's own logic.  `indexError` models the
`IndexError` raised by `results[0]` when `results` is empty. -/
inductive RouterError where
  | indexError
  deriving DecidableEq, Repr

/-- `AgentRouter` state: threshold, fallback, and the registration dict
`_agents` in insertion order. -/
structure AgentRouter where
  confidence_threshold : ℚ := 3/5
  fallback_agent : AgentType := .PLANNER
  agents : List (AgentType × ScoringFn) := []

/-- Insertion into the `_agents` dict: `self._agents[agent_name] = scoring_fn`
overwrites in place when the key exists, else appends. -/
def dictInsert (d : List (AgentType × ScoringFn)) (k : AgentType) (v : ScoringFn) :
    List (AgentType × ScoringFn) :=
  match d with
  | [] => [(k, v)]
  | (k0, v0) :: rest =>
      if k0 = k then (k, v) :: rest else (k0, v0) :: dictInsert rest k v

/-- `AgentRouter.register_agent`. -/
def AgentRouter.register_agent (r : AgentRouter) (agent_name : AgentType)
    (scoring_fn : ScoringFn) : AgentRouter :=
  { r with agents := dictInsert r.agents agent_name scoring_fn }

/-- One iteration of the Director scoring loop body: call the scoring
function; a raised exception is absorbed as confidence `0.0` with reason
`"Scoring error: <message>"`. -/
def scoreEval (fn : ScoringFn) (agent_name : AgentType) (task : Task)
    (context : SideCtx) : AgentRouteResult :=
  match fn task context with
  | .ok (score, reason) => { agent_name := agent_name, confidence := score, reason := reason }
  | .error e => { agent_name := agent_name, confidence := 0, reason := "Scoring error: " ++ e }

/-- The Director scoring loop: iterate the registration dict in insertion
order, skipping `PLANNER`, `DIRECTOR` and `RENDER`, collecting one
`AgentRouteResult` per remaining registration. -/
def directorResults : List (AgentType × ScoringFn) → Task → SideCtx → List AgentRouteResult
  | [], _, _ => []
  | (agent_name, fn) :: rest, task, context =>
      if agent_name = .PLANNER ∨ agent_name = .DIRECTOR ∨ agent_name = .RENDER then
        directorResults rest task context
      else
        scoreEval fn agent_name task context :: directorResults rest task context

/-- Stable insertion (descending by confidence) used to model
`results.sort(key=lambda r: r.confidence, reverse=True)`; CPython's sort
is stable, and so is this insertion sort (an element processed later,
i.e. earlier in the original list, is placed before equal keys). -/
def insertByConf (r : AgentRouteResult) : List AgentRouteResult → List AgentRouteResult
  | [] => [r]
  | x :: xs => if r.confidence < x.confidence then x :: insertByConf r xs else r :: x :: xs

/-- Stable sort by confidence, descending. -/
def sortByConfDesc : List AgentRouteResult → List AgentRouteResult
  | [] => []
  | r :: rest => insertByConf r (sortByConfDesc rest)

/-- ASCII apostrophe, kept out of string literals. -/
def squote : String := String.singleton (Char.ofNat 39)

/-- Round to the nearest integer, ties to even — the rounding CPython's
`format(x, ".2f")` applies to the (here exactly represented) value. -/
def roundHalfEven (q : ℚ) : ℤ :=
  if q - ⌊q⌋ < 1/2 then ⌊q⌋
  else if q - ⌊q⌋ > 1/2 then ⌊q⌋ + 1
  else if ⌊q⌋ % 2 = 0 then ⌊q⌋ else ⌊q⌋ + 1

/-- `f"{q:.2f}"` for the nonnegative rationals the router formats. -/
def formatQ2 (q : ℚ) : String :=
  let n : ℤ := roundHalfEven (q * 100)
  let frac : ℕ := (n % 100).toNat
  toString (n / 100) ++ "." ++ (if frac < 10 then "0" ++ toString frac else toString frac)

/-- `AgentRouter._route_from_director`: confidence-scored selection with
fallback.  `results[0]` on an empty `results` list raises `IndexError`,
modelled as `Except.error .indexError`. -/
def AgentRouter.route_from_director (r : AgentRouter) (task : Task) (context : SideCtx) :
    Except RouterError RoutingDecision :=
  if r.agents.isEmpty then
    .ok { next_agents := [r.fallback_agent], reason := "No agents registered → fallback" }
  else
    match sortByConfDesc (directorResults r.agents task context) with
    | [] => .error .indexError
    | best :: _ =>
      if best.confidence < r.confidence_threshold then
        .ok { next_agents := [r.fallback_agent],
              reason := "Confidence " ++ formatQ2 best.confidence ++ " below threshold "
                ++ formatQ2 r.confidence_threshold ++ ". Fallback to " ++ squote
                ++ r.fallback_agent.value ++ squote ++ ". Original reason: " ++ best.reason }
      else
        .ok { next_agents := [best.agent_name],
              reason := "Director selected " ++ best.agent_name.value ++ " | " ++ best.reason }

/-- `AgentRouter._route_from_render`: review-outcome selection. -/
def AgentRouter.route_from_render (_r : AgentRouter) (_task : Task) (context : SideCtx) :
    RoutingDecision :=
  if dictGet context "review_result" "accept" = "accept" then
    { next_agents := [.END], reason := "Render accepted → pipeline complete" }
  else if dictGet context "review_result" "accept" = "revise" then
    { next_agents := [.DIRECTOR], reason := "Render revision requested → Director" }
  else if dictGet context "review_result" "accept" = "redesign" then
    { next_agents := [.PLANNER], reason := "Major redesign required → Planner" }
  else
    { next_agents := [.END], reason := "Unknown review result → end" }

/-- `AgentRouter.route`: the routing entry point. -/
def AgentRouter.route (r : AgentRouter) (current_agent : Option AgentType) (task : Task)
    (context : SideCtx) : Except RouterError RoutingDecision :=
  match current_agent with
  | none => .ok { next_agents := [.PLANNER], reason := "New task entry → Planner" }
  | some current =>
    if current = .PLANNER then
      .ok { next_agents := [.DIRECTOR], reason := "Planner output ready → Director decision" }
    else if current = .DIRECTOR then
      r.route_from_director task context
    else if current = .ANIMATION ∨ current = .FILM ∨ current = .GAME then
      .ok { next_agents := [.RENDER], reason := "Execution output requires rendering" }
    else if current = .RENDER then
      .ok (r.route_from_render task context)
    else
      .ok { next_agents := [.END], reason := "No matching routing rule" }

/-! ## Built-in scoring functions -/

/-- `k in s` substring test on strings. -/
def strContains (s pat : String) : Bool := decide (pat.data <:+: s.data)

/-- Python `str.lower()`, modelled character by character (the prompts
involved are ASCII, where `Char.toLower` agrees with Python). -/
def lowerStr (s : String) : String := String.mk (s.data.map Char.toLower)

/-- Keyword-fraction score shared by the three built-in scorers:
`sum(k in prompt.lower() for k in keywords) / len(keywords)`. -/
def keywordScore (keywords : List String) (task : Task) : ℚ :=
  ((keywords.countP fun k => strContains (lowerStr (dictGet task.payload "prompt" "")) k : ℕ) : ℚ)
    / (keywords.length : ℚ)

/-- `animation_agent_score`. -/
def animation_agent_score : ScoringFn := fun task _context =>
  .ok (keywordScore
        ["animation", "animated", "character", "motion", "pose", "rig", "keyframe", "movement"]
        task,
      "Animation-related intent detected")

/-- `film_agent_score`. -/
def film_agent_score : ScoringFn := fun task _context =>
  .ok (keywordScore
        ["film", "cinematic", "camera", "shot", "lighting", "scene", "storyboard", "montage"]
        task,
      "Cinematic / film language detected")

/-- `game_agent_score`. -/
def game_agent_score : ScoringFn := fun task _context =>
  .ok (keywordScore
        ["game", "npc", "quest", "combat", "level", "interaction", "player", "skill"]
        task,
      "Game mechanics and interaction detected")

/-! ## Router helper lemmas -/

theorem route_some_director (r : AgentRouter) (task : Task) (context : SideCtx) :
    r.route (some .DIRECTOR) task context = r.route_from_director task context := rfl

theorem rfd_no_agents (r : AgentRouter) (task : Task) (context : SideCtx)
    (h : r.agents = []) :
    r.route_from_director task context =
      .ok { next_agents := [r.fallback_agent], reason := "No agents registered → fallback" } := by
  unfold AgentRouter.route_from_director
  rw [h]
  rfl

theorem rfd_results_empty (r : AgentRouter) (task : Task) (context : SideCtx)
    (h : r.agents ≠ []) (hs : sortByConfDesc (directorResults r.agents task context) = []) :
    r.route_from_director task context = .error .indexError := by
  unfold AgentRouter.route_from_director
  rw [hs, if_neg]
  simp [List.isEmpty_iff, h]

theorem rfd_below_threshold (r : AgentRouter) (task : Task) (context : SideCtx)
    (best : AgentRouteResult) (rest : List AgentRouteResult)
    (h : r.agents ≠ []) (hs : sortByConfDesc (directorResults r.agents task context) = best :: rest)
    (hlt : best.confidence < r.confidence_threshold) :
    r.route_from_director task context =
      .ok { next_agents := [r.fallback_agent],
            reason := "Confidence " ++ formatQ2 best.confidence ++ " below threshold "
              ++ formatQ2 r.confidence_threshold ++ ". Fallback to " ++ squote
              ++ r.fallback_agent.value ++ squote ++ ". Original reason: " ++ best.reason } := by
  unfold AgentRouter.route_from_director
  rw [hs, if_neg]
  · simp [hlt]
  · simp [List.isEmpty_iff, h]

theorem rfd_selected (r : AgentRouter) (task : Task) (context : SideCtx)
    (best : AgentRouteResult) (rest : List AgentRouteResult)
    (h : r.agents ≠ []) (hs : sortByConfDesc (directorResults r.agents task context) = best :: rest)
    (hge : ¬ best.confidence < r.confidence_threshold) :
    r.route_from_director task context =
      .ok { next_agents := [best.agent_name],
            reason := "Director selected " ++ best.agent_name.value ++ " | " ++ best.reason } := by
  unfold AgentRouter.route_from_director
  rw [hs, if_neg]
  · simp [hge]
  · simp [List.isEmpty_iff, h]

/-! ## Stable-sort lemmas -/

theorem insertByConf_ne_nil (r : AgentRouteResult) (l : List AgentRouteResult) :
    insertByConf r l ≠ [] := by
  cases l with
  | nil => simp [insertByConf]
  | cons x xs =>
    unfold insertByConf
    split <;> simp

theorem sortByConfDesc_eq_nil_iff (l : List AgentRouteResult) :
    sortByConfDesc l = [] ↔ l = [] := by
  cases l with
  | nil => simp [sortByConfDesc]
  | cons r rest => simp [sortByConfDesc, insertByConf_ne_nil]

theorem mem_insertByConf (x r : AgentRouteResult) (l : List AgentRouteResult) :
    x ∈ insertByConf r l ↔ x = r ∨ x ∈ l := by
  induction l with
  | nil => simp [insertByConf]
  | cons a l ih =>
    unfold insertByConf
    split
    · simp [ih]
      tauto
    · simp

theorem mem_sortByConfDesc (x : AgentRouteResult) (l : List AgentRouteResult) :
    x ∈ sortByConfDesc l ↔ x ∈ l := by
  induction l with
  | nil => simp [sortByConfDesc]
  | cons r rest ih => simp [sortByConfDesc, mem_insertByConf, ih]

/-- `True` on the results holding the maximum confidence of `l`. -/
def isTopConf (l : List AgentRouteResult) (x : AgentRouteResult) : Bool :=
  l.all fun y => decide (y.confidence ≤ x.confidence)

/-- The earliest element of `l` holding the maximum confidence. -/
def firstTop (l : List AgentRouteResult) : Option AgentRouteResult :=
  l.find? (isTopConf l)

theorem find?_conj {α : Type} (p q : α → Bool) (l : List α) (b : α)
    (h : l.find? p = some b) (hq : q b = true) :
    l.find? (fun x => q x && p x) = some b := by
  induction l with
  | nil => simp at h
  | cons a l ih =>
    by_cases hpa : p a = true
    · rw [List.find?_cons_of_pos _ hpa] at h
      have hab : a = b := by injection h
      subst hab
      rw [List.find?_cons_of_pos]
      simp [hq, hpa]
    · have hpa' : p a = false := by simpa using hpa
      rw [List.find?_cons_of_neg _ (by simp [hpa'])] at h
      rw [List.find?_cons_of_neg _ (by simp [hpa'])]
      exact ih h

theorem head?_sortByConfDesc (l : List AgentRouteResult) :
    (sortByConfDesc l).head? = firstTop l := by
  induction l with
  | nil => rfl
  | cons r rest ih =>
    cases hrest : sortByConfDesc rest with
    | nil =>
      have hre : rest = [] := (sortByConfDesc_eq_nil_iff rest).mp hrest
      subst hre
      simp [sortByConfDesc, insertByConf, firstTop, isTopConf]
    | cons b t =>
      have hb_mem : b ∈ rest := by
        have : b ∈ sortByConfDesc rest := by
          rw [hrest]
          exact List.mem_cons_self b t
        exact (mem_sortByConfDesc b rest).mp this
      have hfind : rest.find? (isTopConf rest) = some b := by
        have := ih
        rw [hrest] at this
        simpa [firstTop] using this.symm
      have hb_top : ∀ y ∈ rest, y.confidence ≤ b.confidence := by
        have := List.find?_some hfind
        simp only [isTopConf, List.all_eq_true] at this
        intro y hy
        simpa using this y hy
      by_cases hlt : r.confidence < b.confidence
      · have hsort : sortByConfDesc (r :: rest) = b :: insertByConf r t := by
          show insertByConf r (sortByConfDesc rest) = b :: insertByConf r t
          rw [hrest]
          show (if r.confidence < b.confidence then b :: insertByConf r t else r :: b :: t)
            = b :: insertByConf r t
          rw [if_pos hlt]
        rw [hsort]
        have hr_not_top : isTopConf (r :: rest) r = false := by
          simp only [isTopConf, List.all_eq_false]
          exact ⟨b, List.mem_cons_of_mem r hb_mem, by simp [not_le.mpr hlt]⟩
        have hpe : isTopConf (r :: rest) =
            (fun x => decide (r.confidence ≤ x.confidence) && isTopConf rest x) := by
          funext x
          simp [isTopConf]
        unfold firstTop
        rw [List.find?_cons_of_neg _ (by simp [hr_not_top])]
        have hfb : rest.find? (isTopConf (r :: rest)) = some b := by
          have hq : decide (r.confidence ≤ b.confidence) = true := by
            simp [le_of_lt hlt]
          have hmain := find?_conj (isTopConf rest) (fun x => decide (r.confidence ≤ x.confidence))
            rest b hfind hq
          rw [hpe]
          exact hmain
        rw [hfb]
        rfl
      · have hsort : sortByConfDesc (r :: rest) = r :: b :: t := by
          show insertByConf r (sortByConfDesc rest) = r :: b :: t
          rw [hrest]
          show (if r.confidence < b.confidence then b :: insertByConf r t else r :: b :: t)
            = r :: b :: t
          rw [if_neg hlt]
        rw [hsort]
        have hr_top : isTopConf (r :: rest) r = true := by
          simp only [isTopConf, List.all_eq_true]
          intro y hy
          rcases List.mem_cons.mp hy with h1 | h2
          · simp [h1]
          · simpa using le_trans (hb_top y h2) (not_lt.mp hlt)
        unfold firstTop
        rw [List.find?_cons_of_pos _ hr_top]
        rfl

/-! ## Absorption and non-emptiness helpers -/

theorem scoreEval_absorbs (fn : ScoringFn) (agent_name : AgentType) (task : Task)
    (context : SideCtx) (e : String) (h : fn task context = .error e) :
    scoreEval fn agent_name task context =
      { agent_name := agent_name, confidence := 0, reason := "Scoring error: " ++ e } := by
  unfold scoreEval
  rw [h]

theorem directorResults_ne_nil (agents : List (AgentType × ScoringFn)) (task : Task)
    (context : SideCtx) (k : AgentType) (fn : ScoringFn)
    (hmem : (k, fn) ∈ agents)
    (hk : ¬(k = .PLANNER ∨ k = .DIRECTOR ∨ k = .RENDER)) :
    directorResults agents task context ≠ [] := by
  induction agents with
  | nil => simp at hmem
  | cons p rest ih =>
    obtain ⟨name, f⟩ := p
    rcases List.mem_cons.mp hmem with he | hm
    · have hname : name = k := by
        have := congrArg Prod.fst he
        exact this.symm
      show (if name = .PLANNER ∨ name = .DIRECTOR ∨ name = .RENDER then
          directorResults rest task context
        else scoreEval f name task context :: directorResults rest task context) ≠ []
      rw [hname, if_neg hk]
      simp
    · show (if name = .PLANNER ∨ name = .DIRECTOR ∨ name = .RENDER then
          directorResults rest task context
        else scoreEval f name task context :: directorResults rest task context) ≠ []
      split
      · exact ih hm
      · simp

/-! ## Concrete routers and tasks used in the decided instances -/

/-- The router of the specification's §8 scenario (`__main__` block of
`agent_router.py`): threshold `0.65`, fallback Planner, the three
built-in scorers registered in order Animation, Film, Game. -/
def exampleRouter : AgentRouter :=
  (((({ confidence_threshold := 65/100, fallback_agent := .PLANNER } : AgentRouter).register_agent
      .ANIMATION animation_agent_score).register_agent
      .FILM film_agent_score).register_agent
      .GAME game_agent_score)

/-- The §8 scenario task. -/
def exampleTask : Task :=
  { task_id := "task_001", task_type := "animation",
    payload := [("prompt", "Create a cinematic sword fight animation")] }

/-- A task with an empty payload, used in closed instances. -/
def sampleTask : Task :=
  { task_id := "t1", task_type := "animation", payload := [] }

/-- A router whose registry is non-empty but holds only a control-only
kind (Planner). -/
def plannerOnlyRouter : AgentRouter :=
  ({} : AgentRouter).register_agent .PLANNER (fun _ _ => .ok (1, "planner self-score"))

/-- A router with a scoring function registered under the terminal kind. -/
def endRouter : AgentRouter :=
  ({} : AgentRouter).register_agent .END (fun _ _ => .ok (1, "end score"))

/-- A router with two execution-capable workers tied at confidence `0.7`,
Animation registered first. -/
def tieRouter : AgentRouter :=
  ((({ confidence_threshold := 3/5, fallback_agent := .PLANNER } : AgentRouter).register_agent
      .ANIMATION (fun _ _ => .ok (7/10, "animation tie"))).register_agent
      .FILM (fun _ _ => .ok (7/10, "film tie")))

/-! ## Concrete evaluations of the §8 scenario -/

theorem exampleResults : directorResults exampleRouter.agents exampleTask [] =
    [{ agent_name := .ANIMATION, confidence := 1/8, reason := "Animation-related intent detected" },
     { agent_name := .FILM, confidence := 1/8, reason := "Cinematic / film language detected" },
     { agent_name := .GAME, confidence := 0, reason := "Game mechanics and interaction detected" }] := by
  have h1 : (["animation", "animated", "character", "motion", "pose", "rig", "keyframe", "movement"].countP
      fun k => strContains (lowerStr (dictGet exampleTask.payload "prompt" "")) k) = 1 := by rfl
  have h2 : (["film", "cinematic", "camera", "shot", "lighting", "scene", "storyboard", "montage"].countP
      fun k => strContains (lowerStr (dictGet exampleTask.payload "prompt" "")) k) = 1 := by rfl
  have h3 : (["game", "npc", "quest", "combat", "level", "interaction", "player", "skill"].countP
      fun k => strContains (lowerStr (dictGet exampleTask.payload "prompt" "")) k) = 0 := by rfl
  simp only [exampleRouter, AgentRouter.register_agent, dictInsert, directorResults, scoreEval,
    animation_agent_score, film_agent_score, game_agent_score, keywordScore, h1, h2, h3]
  rw [if_neg (by decide), if_neg (by decide), if_neg (by decide)]
  norm_num

theorem exampleSorted : sortByConfDesc (directorResults exampleRouter.agents exampleTask []) =
    [{ agent_name := .ANIMATION, confidence := 1/8, reason := "Animation-related intent detected" },
     { agent_name := .FILM, confidence := 1/8, reason := "Cinematic / film language detected" },
     { agent_name := .GAME, confidence := 0, reason := "Game mechanics and interaction detected" }] := by
  rw [exampleResults]
  norm_num [sortByConfDesc, insertByConf]

theorem formatQ2_eighth : formatQ2 (1/8) = "0.12" := by
  have hf : ⌊(1/8 : ℚ) * 100⌋ = 12 := by norm_num [Int.floor_eq_iff]
  have hr : roundHalfEven ((1/8 : ℚ) * 100) = 12 := by
    unfold roundHalfEven
    rw [hf]
    norm_num
  unfold formatQ2
  rw [hr]
  rfl

theorem formatQ2_threshold : formatQ2 (65/100) = "0.65" := by
  have hf : ⌊(65/100 : ℚ) * 100⌋ = 65 := by norm_num [Int.floor_eq_iff]
  have hr : roundHalfEven ((65/100 : ℚ) * 100) = 65 := by
    unfold roundHalfEven
    rw [hf]
    norm_num
  unfold formatQ2
  rw [hr]
  rfl

/-- The reason string the router produces in the §8 scenario. -/
def exampleFallbackReason : String :=
  "Confidence 0.12 below threshold 0.65. Fallback to " ++ squote ++ "planner" ++ squote
    ++ ". Original reason: Animation-related intent detected"

theorem exampleRoute :
    exampleRouter.route (some .DIRECTOR) exampleTask [] =
      .ok { next_agents := [.PLANNER], reason := exampleFallbackReason } := by
  rw [route_some_director]
  rw [rfd_below_threshold exampleRouter exampleTask [] _ _
    (by simp [exampleRouter, AgentRouter.register_agent, dictInsert]) exampleSorted
    (by rw [show exampleRouter.confidence_threshold = 65/100 from rfl]; norm_num)]
  rw [show exampleRouter.confidence_threshold = 65/100 from rfl]
  rw [formatQ2_eighth, formatQ2_threshold]
  rfl

/-! ## Evaluations for the tie and end-registration routers -/

theorem tieResults : directorResults tieRouter.agents sampleTask [] =
    [{ agent_name := .ANIMATION, confidence := 7/10, reason := "animation tie" },
     { agent_name := .FILM, confidence := 7/10, reason := "film tie" }] := rfl

theorem tieSorted : sortByConfDesc (directorResults tieRouter.agents sampleTask []) =
    [{ agent_name := .ANIMATION, confidence := 7/10, reason := "animation tie" },
     { agent_name := .FILM, confidence := 7/10, reason := "film tie" }] := by
  rw [tieResults]
  norm_num [sortByConfDesc, insertByConf]

/-! ## Claim theorems: the router -/

/-- C1 counterexample: with a non-empty registry holding only the
control-only kind Planner, `route(Director, task, ctx)` does not return
a `RoutingDecision` — it raises `IndexError` at `results[0]`, so the
claim that the router's own logic never raises is false on the code. -/
theorem router_raises_on_control_only_registry :
    plannerOnlyRouter.agents ≠ [] ∧
    plannerOnlyRouter.route (some .DIRECTOR) sampleTask [] = .error .indexError := by
  constructor
  · simp [plannerOnlyRouter, AgentRouter.register_agent, dictInsert]
  · rfl

/-- C1 (amended): every exception raised by a registered scoring
function during Director selection is absorbed (recorded as confidence
`0.0` with reason `"Scoring error: <message>"`), and `route` returns a
`RoutingDecision` for every current worker whenever the registry is
empty or holds at least one agent outside the skipped kinds
{Planner, Director, Renderer}; only a non-empty registry of
control-only kinds makes the Director branch raise `IndexError`. -/
theorem router_no_raise_amended :
    (∀ (fn : ScoringFn) (agent_name : AgentType) (task : Task) (context : SideCtx) (e : String),
      fn task context = .error e →
      scoreEval fn agent_name task context =
        { agent_name := agent_name, confidence := 0, reason := "Scoring error: " ++ e }) ∧
    (∀ (r : AgentRouter) (current : Option AgentType) (task : Task) (context : SideCtx),
      (r.agents = [] ∨
        ∃ k fn, (k, fn) ∈ r.agents ∧ ¬(k = .PLANNER ∨ k = .DIRECTOR ∨ k = .RENDER)) →
      ∃ d, r.route current task context = .ok d) := by
  constructor
  · exact scoreEval_absorbs
  · intro r current task context h
    match current with
    | none => exact ⟨_, rfl⟩
    | some .PLANNER => exact ⟨_, rfl⟩
    | some .ANIMATION => exact ⟨_, rfl⟩
    | some .FILM => exact ⟨_, rfl⟩
    | some .GAME => exact ⟨_, rfl⟩
    | some .RENDER => exact ⟨_, rfl⟩
    | some .END => exact ⟨_, rfl⟩
    | some .DIRECTOR =>
      rcases h with hempty | ⟨k, fn, hmem, hk⟩
      · exact ⟨_, by rw [route_some_director]; exact rfd_no_agents r task context hempty⟩
      · have hne : r.agents ≠ [] := by
          intro h0
          rw [h0] at hmem
          simp at hmem
        have hdr : directorResults r.agents task context ≠ [] :=
          directorResults_ne_nil r.agents task context k fn hmem hk
        cases hsort : sortByConfDesc (directorResults r.agents task context) with
        | nil => exact absurd ((sortByConfDesc_eq_nil_iff _).mp hsort) hdr
        | cons best rest =>
          by_cases hlt : best.confidence < r.confidence_threshold
          · exact ⟨_, by
              rw [route_some_director]
              exact rfd_below_threshold r task context best rest hne hsort hlt⟩
          · exact ⟨_, by
              rw [route_some_director]
              exact rfd_selected r task context best rest hne hsort hlt⟩

/-- C1 witness: the amended theorem applied at concrete inputs — an
always-raising scorer is absorbed with reason `"Scoring error: boom"`,
and a registry holding an agent outside the skipped kinds routes to a
decision. -/
theorem router_no_raise_amended_witness :
    scoreEval (fun _ _ => .error "boom") .ANIMATION sampleTask [] =
      { agent_name := .ANIMATION, confidence := 0, reason := "Scoring error: boom" } ∧
    (∃ d, endRouter.route (some .DIRECTOR) sampleTask [] = .ok d) := by
  have h := router_no_raise_amended
  refine ⟨h.1 (fun _ _ => .error "boom") .ANIMATION sampleTask [] "boom" rfl, ?_⟩
  refine h.2 endRouter (some .DIRECTOR) sampleTask [] (Or.inr ⟨.END, fun _ _ => .ok (1, "end score"), ?_, by decide⟩)
  show (AgentType.END, _) ∈ [(AgentType.END, fun _ _ => Except.ok (1, "end score"))]
  exact List.mem_singleton.mpr rfl

/-- C4: with zero registered workers, Director routing returns the
fallback immediately with the no-workers reason; with a non-empty
registry whose top-ranked confidence is below the threshold, it returns
exactly the fallback worker with a reason built from the top confidence
(2-decimal format), the threshold, the fallback name and the top
result's original reason; in the §8 scenario the decision is
`[Planner]` and the reason contains `"0.12"` and `"0.65"`. -/
theorem director_fallback_below_threshold :
    (∀ (r : AgentRouter) (task : Task) (context : SideCtx),
      r.agents = [] →
      r.route (some .DIRECTOR) task context =
        .ok { next_agents := [r.fallback_agent], reason := "No agents registered → fallback" }) ∧
    (∀ (r : AgentRouter) (task : Task) (context : SideCtx)
        (best : AgentRouteResult) (rest : List AgentRouteResult),
      r.agents ≠ [] →
      sortByConfDesc (directorResults r.agents task context) = best :: rest →
      best.confidence < r.confidence_threshold →
      r.route (some .DIRECTOR) task context =
        .ok { next_agents := [r.fallback_agent],
              reason := "Confidence " ++ formatQ2 best.confidence ++ " below threshold "
                ++ formatQ2 r.confidence_threshold ++ ". Fallback to " ++ squote
                ++ r.fallback_agent.value ++ squote ++ ". Original reason: " ++ best.reason }) ∧
    exampleRouter.route (some .DIRECTOR) exampleTask [] =
      .ok { next_agents := [.PLANNER], reason := exampleFallbackReason } ∧
    strContains exampleFallbackReason "0.12" = true ∧
    strContains exampleFallbackReason "0.65" = true := by
  refine ⟨?_, ?_, exampleRoute, by decide, by decide⟩
  · intro r task context h
    rw [route_some_director]
    exact rfd_no_agents r task context h
  · intro r task context best rest hne hs hlt
    rw [route_some_director]
    exact rfd_below_threshold r task context best rest hne hs hlt

/-- C4 witness: the theorem applied at the empty router and at the §8
scenario router. -/
theorem director_fallback_below_threshold_witness :
    ({} : AgentRouter).route (some .DIRECTOR) sampleTask [] =
      .ok { next_agents := [.PLANNER], reason := "No agents registered → fallback" } ∧
    exampleRouter.route (some .DIRECTOR) exampleTask [] =
      .ok { next_agents := [.PLANNER], reason := exampleFallbackReason } := by
  have h := director_fallback_below_threshold
  exact ⟨h.1 {} sampleTask [] rfl, h.2.2.1⟩

/-- C5: the code invokes a scoring function registered under the
terminal kind `END` during Director selection — it skips only
`PLANNER`, `DIRECTOR` and `RENDER` — contradicting both the claim and
the code's own comment ("Skip non-execution agents for scoring"): the
END registration contributes a scoring result and is even selected as
the next agent. -/
theorem end_scorer_invoked :
    directorResults endRouter.agents sampleTask [] =
      [{ agent_name := .END, confidence := 1, reason := "end score" }] ∧
    endRouter.route (some .DIRECTOR) sampleTask [] =
      .ok { next_agents := [.END], reason := "Director selected end | end score" } := by
  constructor
  · rfl
  · rw [route_some_director]
    rw [rfd_selected endRouter sampleTask []
      { agent_name := .END, confidence := 1, reason := "end score" } []
      (by simp [endRouter, AgentRouter.register_agent, dictInsert])
      (by rfl)
      (by rw [show endRouter.confidence_threshold = 3/5 from rfl]; norm_num)]
    rfl

/-- C6: the non-Director transitions of `route` are fixed: entry goes to
Planner, Planner to Director, execution kinds to Renderer, Renderer maps
the (defaulted) review result to Terminal/Director/Planner with Terminal
and an unknown-review reason otherwise, and Terminal loops to Terminal. -/
theorem route_non_director_transitions :
    ∀ (r : AgentRouter) (task : Task) (context : SideCtx),
      r.route none task context = .ok { next_agents := [.PLANNER], reason := "New task entry → Planner" } ∧
      r.route (some .PLANNER) task context =
        .ok { next_agents := [.DIRECTOR], reason := "Planner output ready → Director decision" } ∧
      (∀ w, (w = AgentType.ANIMATION ∨ w = AgentType.FILM ∨ w = AgentType.GAME) →
        r.route (some w) task context =
          .ok { next_agents := [.RENDER], reason := "Execution output requires rendering" }) ∧
      (context.lookup "review_result" = none →
        r.route (some .RENDER) task context =
          .ok { next_agents := [.END], reason := "Render accepted → pipeline complete" }) ∧
      (dictGet context "review_result" "accept" = "accept" →
        r.route (some .RENDER) task context =
          .ok { next_agents := [.END], reason := "Render accepted → pipeline complete" }) ∧
      (dictGet context "review_result" "accept" = "revise" →
        r.route (some .RENDER) task context =
          .ok { next_agents := [.DIRECTOR], reason := "Render revision requested → Director" }) ∧
      (dictGet context "review_result" "accept" = "redesign" →
        r.route (some .RENDER) task context =
          .ok { next_agents := [.PLANNER], reason := "Major redesign required → Planner" }) ∧
      (∀ v, dictGet context "review_result" "accept" = v →
        v ≠ "accept" → v ≠ "revise" → v ≠ "redesign" →
        r.route (some .RENDER) task context =
          .ok { next_agents := [.END], reason := "Unknown review result → end" }) ∧
      r.route (some .END) task context =
        .ok { next_agents := [.END], reason := "No matching routing rule" } := by
  intro r task context
  have hrender : r.route (some .RENDER) task context = .ok (r.route_from_render task context) := rfl
  refine ⟨rfl, rfl, ?_, ?_, ?_, ?_, ?_, ?_, rfl⟩
  · intro w hw
    rcases hw with h | h | h <;> subst h <;> rfl
  · intro h
    rw [hrender]
    unfold AgentRouter.route_from_render
    unfold dictGet
    rw [h]
    rfl
  · intro h
    rw [hrender]
    unfold AgentRouter.route_from_render
    rw [h]
    rfl
  · intro h
    rw [hrender]
    unfold AgentRouter.route_from_render
    rw [h]
    rfl
  · intro h
    rw [hrender]
    unfold AgentRouter.route_from_render
    rw [h]
    rfl
  · intro v hv h1 h2 h3
    rw [hrender]
    unfold AgentRouter.route_from_render
    rw [hv, if_neg h1, if_neg h2, if_neg h3]

/-- C6 witness: the transition table applied at concrete side contexts
for each review outcome, including the absent and unknown cases. -/
theorem route_non_director_transitions_witness :
    ({} : AgentRouter).route none sampleTask [] =
      .ok { next_agents := [.PLANNER], reason := "New task entry → Planner" } ∧
    ({} : AgentRouter).route (some .ANIMATION) sampleTask [] =
      .ok { next_agents := [.RENDER], reason := "Execution output requires rendering" } ∧
    ({} : AgentRouter).route (some .RENDER) sampleTask [] =
      .ok { next_agents := [.END], reason := "Render accepted → pipeline complete" } ∧
    ({} : AgentRouter).route (some .RENDER) sampleTask [("review_result", "revise")] =
      .ok { next_agents := [.DIRECTOR], reason := "Render revision requested → Director" } ∧
    ({} : AgentRouter).route (some .RENDER) sampleTask [("review_result", "redesign")] =
      .ok { next_agents := [.PLANNER], reason := "Major redesign required → Planner" } ∧
    ({} : AgentRouter).route (some .RENDER) sampleTask [("review_result", "bogus")] =
      .ok { next_agents := [.END], reason := "Unknown review result → end" } := by
  refine ⟨(route_non_director_transitions {} sampleTask []).1,
    (route_non_director_transitions {} sampleTask []).2.2.1 .ANIMATION (Or.inl rfl),
    (route_non_director_transitions {} sampleTask []).2.2.2.1 rfl,
    (route_non_director_transitions {} sampleTask [("review_result", "revise")]).2.2.2.2.2.1 rfl,
    (route_non_director_transitions {} sampleTask [("review_result", "redesign")]).2.2.2.2.2.2.1 rfl,
    (route_non_director_transitions {} sampleTask [("review_result", "bogus")]).2.2.2.2.2.2.2.1
      "bogus" rfl (by decide) (by decide) (by decide)⟩

/-- C7: scoring results are ranked by confidence descending with ties
broken by registration-iteration order — the head of the stable
descending sort is always the earliest result holding the maximum
confidence — and when that head clears the threshold the router selects
exactly its worker. -/
theorem director_rank_tiebreak :
    (∀ l : List AgentRouteResult, (sortByConfDesc l).head? = firstTop l) ∧
    (∀ (r : AgentRouter) (task : Task) (context : SideCtx)
        (best : AgentRouteResult) (rest : List AgentRouteResult),
      r.agents ≠ [] →
      sortByConfDesc (directorResults r.agents task context) = best :: rest →
      ¬ best.confidence < r.confidence_threshold →
      firstTop (directorResults r.agents task context) = some best ∧
      r.route (some .DIRECTOR) task context =
        .ok { next_agents := [best.agent_name],
              reason := "Director selected " ++ best.agent_name.value ++ " | " ++ best.reason }) := by
  refine ⟨head?_sortByConfDesc, ?_⟩
  intro r task context best rest hne hs hge
  constructor
  · rw [← head?_sortByConfDesc, hs]
    rfl
  · rw [route_some_director]
    exact rfd_selected r task context best rest hne hs hge

/-- C7 witness: two workers tied at confidence `0.7` above the `0.6`
threshold; the earliest-registered (Animation) is selected. -/
theorem director_rank_tiebreak_witness :
    firstTop (directorResults tieRouter.agents sampleTask []) =
      some { agent_name := .ANIMATION, confidence := 7/10, reason := "animation tie" } ∧
    tieRouter.route (some .DIRECTOR) sampleTask [] =
      .ok { next_agents := [.ANIMATION], reason := "Director selected animation | animation tie" } := by
  have h := (director_rank_tiebreak).2 tieRouter sampleTask []
    { agent_name := .ANIMATION, confidence := 7/10, reason := "animation tie" }
    [{ agent_name := .FILM, confidence := 7/10, reason := "film tie" }]
    (by simp [tieRouter, AgentRouter.register_agent, dictInsert])
    tieSorted
    (by rw [show tieRouter.confidence_threshold = 3/5 from rfl]; norm_num)
  exact ⟨h.1, h.2⟩

/-! ## Retry policy (`innovator/retry.py`)

The wrapped coroutine is modelled as a function from the (0-indexed)
invocation number to that invocation's outcome, and the wrapper's
observable behaviour as a trace: how many times the operation was
invoked, the sequence of backoff sleeps, and the final outcome.  The
`retryable_exceptions` tuple (isinstance test) is modelled as a Boolean
classifier on exceptions.  The optional `on_retry` callback only logs
and has its own exceptions swallowed, so it does not affect the trace
and is not modelled. -/

/-- `RetryConfig` with its Python defaults
(`retryable_exceptions=(Exception,)` catches everything). -/
structure RetryConfig (E : Type) where
  enabled : Bool := true
  max_retries : ℕ := 3
  initial_delay : ℚ := 1
  max_delay : ℚ := 60
  exponential_base : ℚ := 2
  retryable : E → Bool := fun _ => true

/-- `RetryConfig.calculate_delay`: exponential backoff capped by
`max_delay`. -/
def RetryConfig.calculate_delay {E : Type} (cfg : RetryConfig E) (attempt : ℕ) : ℚ :=
  min (cfg.initial_delay * cfg.exponential_base ^ attempt) cfg.max_delay

/-- The errors the wrapper can raise: a propagated underlying exception,
or `RetryExhaustedError(last_exception, attempts)`. -/
inductive RetryError (E : Type) where
  | raised (e : E)
  | exhausted (last_exception : E) (attempts : ℕ)
  deriving DecidableEq, Repr

/-- Observable behaviour of one call of the wrapped operation. -/
structure RetryTrace (E V : Type) where
  attemptsMade : ℕ
  sleeps : List ℚ
  outcome : Except (RetryError E) V

/-- The retry loop `for attempt in range(config.max_retries + 1)`,
with `remaining = config.max_retries - attempt` as structural fuel:
a successful call returns; a non-retryable exception propagates; a
retryable exception on the last allowed attempt raises
`RetryExhaustedError(e, attempt + 1)`; otherwise the wrapper sleeps
`calculate_delay(attempt)` and retries. -/
def retryGo {E V : Type} (cfg : RetryConfig E) (op : ℕ → Except E V) :
    ℕ → ℕ → RetryTrace E V
  | attempt, remaining =>
    match op attempt with
    | .ok v => { attemptsMade := attempt + 1, sleeps := [], outcome := .ok v }
    | .error e =>
      if cfg.retryable e then
        match remaining with
        | 0 =>
          { attemptsMade := attempt + 1, sleeps := [],
            outcome := .error (.exhausted e (attempt + 1)) }
        | remaining' + 1 =>
          let rest := retryGo cfg op (attempt + 1) remaining'
          { attemptsMade := rest.attemptsMade,
            sleeps := cfg.calculate_delay attempt :: rest.sleeps,
            outcome := rest.outcome }
      else
        { attemptsMade := attempt + 1, sleeps := [], outcome := .error (.raised e) }

/-- `async_retry(config)(func)` applied once: disabled configuration is
a pure passthrough of the first invocation (no catching, no sleeping);
an enabled configuration runs the retry loop. -/
def asyncRetryWrapper {E V : Type} (cfg : RetryConfig E) (op : ℕ → Except E V) :
    RetryTrace E V :=
  if cfg.enabled then retryGo cfg op 0 cfg.max_retries
  else
    { attemptsMade := 1, sleeps := [],
      outcome := (op 0).mapError .raised }

/-- The retry loop under an always-failing, always-retryable operation:
attempts run from `attempt` to `attempt + remaining`, sleeping after
each but the last, and end in exhaustion. -/
theorem retryGo_all_fail {E V : Type} (cfg : RetryConfig E) (op : ℕ → Except E V)
    (err : ℕ → E) (hop : ∀ i, op i = .error (err i))
    (hr : ∀ i, cfg.retryable (err i) = true) :
    ∀ (remaining attempt : ℕ),
      retryGo cfg op attempt remaining =
        { attemptsMade := attempt + remaining + 1,
          sleeps := (List.range' attempt remaining).map cfg.calculate_delay,
          outcome := .error (.exhausted (err (attempt + remaining)) (attempt + remaining + 1)) } := by
  intro remaining
  induction remaining with
  | zero =>
    intro attempt
    unfold retryGo
    rw [hop attempt, ]
    simp [hr attempt]
  | succ r ih =>
    intro attempt
    unfold retryGo
    rw [hop attempt]
    simp only [hr attempt, if_true]
    rw [ih (attempt + 1)]
    have h1 : attempt + 1 + r = attempt + (r + 1) := by omega
    rw [List.range'_succ]
    simp only [List.map_cons, RetryTrace.mk.injEq]
    exact ⟨by omega, trivial, by rw [h1]⟩

/-- C2: for an enabled policy whose wrapped operation fails with a
retryable error on every invocation, the operation is attempted exactly
`max_retries + 1` times, the wrapper sleeps
`min(initial_delay * exponential_base^attempt, max_delay)` before each
retry (attempt 0-indexed), and the final failure raises
`RetryExhaustedError` carrying the last underlying exception and the
total attempt count `max_retries + 1`. -/
theorem retry_exhaustion {E V : Type} (cfg : RetryConfig E) (op : ℕ → Except E V)
    (err : ℕ → E) (hen : cfg.enabled = true)
    (hop : ∀ i, op i = .error (err i))
    (hr : ∀ i, cfg.retryable (err i) = true) :
    (asyncRetryWrapper cfg op).attemptsMade = cfg.max_retries + 1 ∧
    (asyncRetryWrapper cfg op).sleeps =
      (List.range cfg.max_retries).map
        (fun attempt => min (cfg.initial_delay * cfg.exponential_base ^ attempt) cfg.max_delay) ∧
    (asyncRetryWrapper cfg op).outcome =
      .error (.exhausted (err cfg.max_retries) (cfg.max_retries + 1)) := by
  have hw : asyncRetryWrapper cfg op = retryGo cfg op 0 cfg.max_retries := by
    unfold asyncRetryWrapper
    rw [hen]
    rfl
  rw [hw, retryGo_all_fail cfg op err hop hr cfg.max_retries 0]
  refine ⟨?_, ?_, ?_⟩
  · show 0 + cfg.max_retries + 1 = cfg.max_retries + 1
    omega
  · show (List.range' 0 cfg.max_retries).map cfg.calculate_delay = _
    rw [List.range_eq_range']
    exact List.map_congr_left fun a _ => rfl
  · show Except.error (RetryError.exhausted (err (0 + cfg.max_retries)) (0 + cfg.max_retries + 1)) = _
    simp

/-- The spec's concrete retry configuration:
`max_retries=3, initial_delay=1.0, exponential_base=2.0, max_delay=60.0`. -/
def retryCfg3 : RetryConfig String :=
  { enabled := true, max_retries := 3, initial_delay := 1, max_delay := 60,
    exponential_base := 2, retryable := fun _ => true }

/-- C2 witness: under `retryCfg3` with a constantly failing operation,
the theorem yields 4 attempts, sleeps `[1.0, 2.0, 4.0]`, and
`RetryExhaustedError` with `attempts = 4`. -/
theorem retry_exhaustion_witness :
    (asyncRetryWrapper retryCfg3 (fun _ => .error "boom" : ℕ → Except String Unit)).attemptsMade = 4 ∧
    (asyncRetryWrapper retryCfg3 (fun _ => .error "boom" : ℕ → Except String Unit)).sleeps = [1, 2, 4] ∧
    (asyncRetryWrapper retryCfg3 (fun _ => .error "boom" : ℕ → Except String Unit)).outcome =
      .error (.exhausted "boom" 4) := by
  have h := retry_exhaustion retryCfg3 (fun _ => .error "boom" : ℕ → Except String Unit)
    (fun _ => "boom") rfl (fun _ => rfl) (fun _ => rfl)
  refine ⟨h.1, ?_, h.2.2⟩
  rw [h.2.1]
  show [min ((1:ℚ) * 2 ^ 0) 60, min ((1:ℚ) * 2 ^ 1) 60, min ((1:ℚ) * 2 ^ 2) 60] = [1, 2, 4]
  norm_num

/-! ## Animation pipeline data model (`innovator/animation_agent.py`)

The shared mutable `AnimationContext` is threaded explicitly: a stage
maps the incoming context to the context as mutated when the stage
returned or raised, together with `Option` of the raised error.  The
`characters` dict is an association list in insertion order. -/

structure GlobalStyle where
  visual_style : String
  lighting : String
  color_palette : String
  fps : ℕ := 24
  resolution : String := "1920x1080"
  deriving DecidableEq, Repr

structure CharacterProfile where
  name : String
  appearance : String
  costume : String
  personality : String
  deriving DecidableEq, Repr

structure Camera where
  shot_type : String
  movement : String
  lens : String
  angle : String
  deriving DecidableEq, Repr

structure Motion where
  start_pose : String
  action : String
  end_pose : String
  deriving DecidableEq, Repr

structure Shot where
  id : String
  duration : ℚ
  subject : String
  environment : String
  camera : Camera
  motion : Motion
  deriving DecidableEq, Repr

structure Scene where
  id : String
  description : String
  shots : List Shot := []
  deriving DecidableEq, Repr

structure Timeline where
  scenes : List Scene := []
  deriving DecidableEq, Repr

structure AnimationContext where
  style : GlobalStyle
  characters : List (String × CharacterProfile) := []
  timeline : Timeline := {}
  deriving DecidableEq, Repr

/-- Exceptions aborting a stage: the `ValueError` of `parse_response`
when `json.loads` fails, and the `KeyError` of a missing dictionary key
during `apply` (including the storyboard's `scene_map[s["scene_id"]]`
lookup on an unknown scene id). -/
inductive StageError where
  | parseFailure (stage : String)
  | keyError (key : String)
  deriving DecidableEq, Repr

/-- One entry of the planning payload's `"scenes"` list.  `apply` reads
`s["id"]` and `s["description"]`; a missing key raises `KeyError`, so
these fields are `Option`-valued. -/
structure SceneEntry where
  id : Option String
  description : Option String
  deriving DecidableEq, Repr

/-- One entry of the storyboard payload's `"shots"` list.  The entry
keys other than the `scene_id` lookup are not at issue in any claim, so
they are modelled as present. -/
structure ShotEntry where
  scene_id : String
  shot_id : String
  duration : ℚ
  subject : String
  environment : String
  camera : Camera
  deriving DecidableEq, Repr

/-- One entry of the motion payload's `"motions"` list. -/
structure MotionEntry where
  shot_id : String
  start_pose : String
  action : String
  end_pose : String
  deriving DecidableEq, Repr

/-- The `Motion` record built from a motion entry's fields. -/
def motionOf (m : MotionEntry) : Motion :=
  { start_pose := m.start_pose, action := m.action, end_pose := m.end_pose }

/-- The ids of the timeline's scenes, in timeline order. -/
def sceneIds (ctx : AnimationContext) : List String :=
  ctx.timeline.scenes.map (fun sc => sc.id)

/-! ## Stage deltas -/

/-- `PlanningStage.apply`: append one `Scene` per entry of
`data.get("scenes", [])`, in payload order and without deduplication; a
missing `"id"` or `"description"` key raises `KeyError` (the scenes
appended for earlier entries stay in place). -/
def PlanningStage.apply : AnimationContext → List SceneEntry → AnimationContext × Option StageError
  | ctx, [] => (ctx, none)
  | ctx, s :: rest =>
    match s.id with
    | none => (ctx, some (.keyError "id"))
    | some i =>
      match s.description with
      | none => (ctx, some (.keyError "description"))
      | some d =>
        PlanningStage.apply
          { ctx with timeline :=
              { scenes := ctx.timeline.scenes ++ [{ id := i, description := d }] } }
          rest

/-- `scene_map = {s.id: s for s in context.timeline.scenes}` followed by
`scene_map[sid].shots.append(shot)`, expressed directly on the timeline:
the shot is appended to the **last** scene bearing `sid` (a dict
comprehension keeps the last binding on duplicate ids, and the map's
values alias the timeline's scene objects); `none` models the
`KeyError` of an unbound `sid`. -/
def appendShotToScene : List Scene → String → Shot → Option (List Scene)
  | [], _, _ => none
  | sc :: rest, sid, shot =>
    match appendShotToScene rest sid shot with
    | some rest' => some (sc :: rest')
    | none =>
      if sc.id = sid then some ({ sc with shots := sc.shots ++ [shot] } :: rest)
      else none

/-- The `Shot` a storyboard entry constructs: placeholder motion fields
`"undefined"/"undefined"/"undefined"` pending the Motion stage. -/
def mkStoryboardShot (e : ShotEntry) : Shot :=
  { id := e.shot_id, duration := e.duration, subject := e.subject,
    environment := e.environment, camera := e.camera,
    motion := { start_pose := "undefined", action := "undefined", end_pose := "undefined" } }

/-- `StoryboardStage.apply`: for each entry of `data.get("shots", [])`,
look up the named scene and append the placeholder shot; an unknown
`scene_id` raises `KeyError`, leaving the shots appended for earlier
entries in place. -/
def StoryboardStage.apply : AnimationContext → List ShotEntry → AnimationContext × Option StageError
  | ctx, [] => (ctx, none)
  | ctx, e :: rest =>
    match appendShotToScene ctx.timeline.scenes e.scene_id (mkStoryboardShot e) with
    | none => (ctx, some (.keyError e.scene_id))
    | some scenes' =>
      StoryboardStage.apply { ctx with timeline := { scenes := scenes' } } rest

/-- The inner loops of `MotionDesignStage.apply` for one shot: scan the
full motion list, overwriting the shot's three motion fields on every
entry whose `shot_id` equals the shot's id. -/
def applyMotionsToShot (shot : Shot) (motions : List MotionEntry) : Shot :=
  motions.foldl
    (fun sh m => if m.shot_id = sh.id then { sh with motion := motionOf m } else sh)
    shot

/-- `MotionDesignStage.apply`: every shot of every scene scans
`data.get("motions", [])`; the stage itself never raises. -/
def MotionDesignStage.apply (ctx : AnimationContext) (motions : List MotionEntry) :
    AnimationContext × Option StageError :=
  ({ ctx with timeline :=
      { scenes := ctx.timeline.scenes.map
          (fun sc => { sc with shots := sc.shots.map (fun sh => applyMotionsToShot sh motions) }) } },
    none)

/-- The last motion entry matching a shot id, if any. -/
def lastMatch (motions : List MotionEntry) (sid : String) : Option MotionEntry :=
  (motions.filter (fun m => m.shot_id = sid)).getLast?

/-! ## Pipeline executor -/

/-- A generative stage paired with the parse outcome of the external
generation result it consumes: `none` models content on which
`json.loads` raises, `some` the relevant `data.get(...)` list of the
parsed payload. -/
inductive PipelineStage where
  | planning (parsed : Option (List SceneEntry))
  | storyboard (parsed : Option (List ShotEntry))
  | motion (parsed : Option (List MotionEntry))

/-- The `name` attribute of each stage class. -/
def stageName : PipelineStage → String
  | .planning _ => "planning"
  | .storyboard _ => "storyboard"
  | .motion _ => "motion"

/-- `LLMStage.run`: `parse_response` raises `ValueError` on malformed
content, aborting before `apply` touches the context; on parsed content
the stage's `apply` runs. -/
def runStage : PipelineStage → AnimationContext → AnimationContext × Option StageError
  | .planning none, ctx => (ctx, some (.parseFailure "planning"))
  | .planning (some d), ctx => PlanningStage.apply ctx d
  | .storyboard none, ctx => (ctx, some (.parseFailure "storyboard"))
  | .storyboard (some d), ctx => StoryboardStage.apply ctx d
  | .motion none, ctx => (ctx, some (.parseFailure "motion"))
  | .motion (some d), ctx => MotionDesignStage.apply ctx d

/-- `AnimationAgent.run` (the stage-pipeline scheduler defined at
`animation_agent.py` line 295): run the stages strictly in order; a
raised stage error propagates and aborts the loop. -/
def AnimationAgent.run : AnimationContext → List PipelineStage → AnimationContext × Option StageError
  | ctx, [] => (ctx, none)
  | ctx, st :: rest =>
    match runStage st ctx with
    | (ctx', none) => AnimationAgent.run ctx' rest
    | (ctx', some e) => (ctx', some e)

/-! ## Motion-stage lemmas -/

theorem applyMotionsToShot_cons (shot : Shot) (m : MotionEntry) (ms : List MotionEntry) :
    applyMotionsToShot shot (m :: ms) =
      applyMotionsToShot (if m.shot_id = shot.id then { shot with motion := motionOf m } else shot)
        ms := rfl

theorem applyMotionsToShot_eq_lastMatch (motions : List MotionEntry) (shot : Shot) :
    applyMotionsToShot shot motions =
      match lastMatch motions shot.id with
      | some m => { shot with motion := motionOf m }
      | none => shot := by
  induction motions generalizing shot with
  | nil => rfl
  | cons m ms ih =>
    rw [applyMotionsToShot_cons]
    by_cases hm : m.shot_id = shot.id
    · rw [if_pos hm, ih]
      have hid : ({ shot with motion := motionOf m } : Shot).id = shot.id := rfl
      unfold lastMatch
      rw [hid, List.filter_cons_of_pos (by simp [hm])]
      cases hfl : ms.filter (fun x => x.shot_id = shot.id) with
      | nil => simp
      | cons x xs =>
        rw [List.getLast?_cons_cons]
        cases hlast : (x :: xs).getLast? with
        | none => simp at hlast
        | some m' => simp
    · rw [if_neg hm, ih]
      unfold lastMatch
      rw [List.filter_cons_of_neg (by simp [hm])]

/-- C3: `MotionDesignStage.apply` never raises, and afterwards every
shot whose id matches at least one payload entry carries the motion
fields of the **last** matching entry in payload order, while every
shot with no matching entry keeps its prior (placeholder) motion. -/
theorem motion_last_match_wins (ctx : AnimationContext) (motions : List MotionEntry) :
    MotionDesignStage.apply ctx motions =
      ({ ctx with timeline :=
          { scenes := ctx.timeline.scenes.map (fun sc =>
              { sc with shots := sc.shots.map (fun sh =>
                  match lastMatch motions sh.id with
                  | some m => { sh with motion := motionOf m }
                  | none => sh) }) } },
        none) := by
  unfold MotionDesignStage.apply
  simp only [applyMotionsToShot_eq_lastMatch]

/-- A two-scene context whose scenes both hold a shot with id
`"shot_1"`, with placeholder motion. -/
def dupShotCtx : AnimationContext :=
  { style := { visual_style := "anime", lighting := "low-key", color_palette := "cold blue" },
    timeline :=
      { scenes :=
          [{ id := "scene_1", description := "intro",
             shots := [{ id := "shot_1", duration := 3, subject := "Hero",
                         environment := "ruined city",
                         camera := { shot_type := "wide", movement := "dolly in",
                                     lens := "35mm", angle := "eye-level" },
                         motion := { start_pose := "undefined", action := "undefined",
                                     end_pose := "undefined" } }] },
           { id := "scene_2", description := "duel",
             shots := [{ id := "shot_1", duration := 2, subject := "Villain",
                         environment := "castle",
                         camera := { shot_type := "close-up", movement := "static",
                                     lens := "50mm", angle := "low" },
                         motion := { start_pose := "undefined", action := "undefined",
                                     end_pose := "undefined" } }] }] } }

/-- A single motion entry for `"shot_1"`. -/
def dupShotEntry : MotionEntry :=
  { shot_id := "shot_1", start_pose := "standing", action := "slash", end_pose := "kneeling" }

/-- C10: motion entries are matched to shots by shot id alone, with no
scene qualification — a single entry overwrites the motion of **every**
shot bearing that id in **every** scene; witnessed concretely on two
scenes sharing shot id `"shot_1"`. -/
theorem motion_matches_by_shot_id_only :
    (∀ (ctx : AnimationContext) (m : MotionEntry),
      (MotionDesignStage.apply ctx [m]).1.timeline.scenes =
        ctx.timeline.scenes.map (fun sc =>
          { sc with shots := sc.shots.map (fun sh =>
              if m.shot_id = sh.id then { sh with motion := motionOf m } else sh) })) ∧
    (MotionDesignStage.apply dupShotCtx [dupShotEntry]).1.timeline.scenes.map
        (fun sc => sc.shots.map (fun sh => sh.motion)) =
      [[{ start_pose := "standing", action := "slash", end_pose := "kneeling" }],
       [{ start_pose := "standing", action := "slash", end_pose := "kneeling" }]] := by
  constructor
  · intro ctx m
    unfold MotionDesignStage.apply
    simp only [applyMotionsToShot_cons, applyMotionsToShot]
    rfl
  · rfl

/-! ## Storyboard-stage lemmas -/

theorem appendShotToScene_eq_none_iff (scenes : List Scene) (sid : String) (shot : Shot) :
    appendShotToScene scenes sid shot = none ↔ sid ∉ scenes.map (fun sc => sc.id) := by
  induction scenes with
  | nil => simp [appendShotToScene]
  | cons sc rest ih =>
    unfold appendShotToScene
    cases hrec : appendShotToScene rest sid shot with
    | some rest' =>
      have hmem : sid ∈ rest.map (fun sc => sc.id) := by
        by_contra hno
        rw [ih.mpr hno] at hrec
        exact Option.noConfusion hrec
      simp [hmem]
    | none =>
      have hnr : sid ∉ rest.map (fun sc => sc.id) := ih.mp hrec
      by_cases hid : sc.id = sid
      · simp [hid]
      · have : sid ≠ sc.id := fun h => hid h.symm
        simp [hid, hnr, this]

theorem appendShotToScene_preserves_ids (scenes : List Scene) (sid : String) (shot : Shot) :
    ∀ scenes', appendShotToScene scenes sid shot = some scenes' →
      scenes'.map (fun sc => sc.id) = scenes.map (fun sc => sc.id) := by
  induction scenes with
  | nil =>
    intro s' h
    simp [appendShotToScene] at h
  | cons sc rest ih =>
    intro s' h
    unfold appendShotToScene at h
    cases hrec : appendShotToScene rest sid shot with
    | some rest' =>
      rw [hrec] at h
      have hs' : s' = sc :: rest' := by
        injection h with h0
        exact h0.symm
      subst hs'
      simp only [List.map_cons]
      rw [ih rest' hrec]
    | none =>
      rw [hrec] at h
      by_cases hid : sc.id = sid
      · rw [if_pos hid] at h
        have hs' : s' = { sc with shots := sc.shots ++ [shot] } :: rest := by
          injection h with h0
          exact h0.symm
        subst hs'
        simp only [List.map_cons]
      · rw [if_neg hid] at h
        exact Option.noConfusion h

theorem appendShotToScene_nodup (scenes : List Scene) (sid : String) (shot : Shot)
    (hnd : (scenes.map (fun sc => sc.id)).Nodup) (hmem : sid ∈ scenes.map (fun sc => sc.id)) :
    appendShotToScene scenes sid shot =
      some (scenes.map (fun sc =>
        if sc.id = sid then { sc with shots := sc.shots ++ [shot] } else sc)) := by
  induction scenes with
  | nil => simp at hmem
  | cons sc rest ih =>
    rw [List.map_cons] at hnd hmem
    have hpair := List.nodup_cons.mp hnd
    have hhead : sc.id ∉ rest.map (fun x => x.id) := hpair.1
    have hnd' : (rest.map (fun x => x.id)).Nodup := hpair.2
    unfold appendShotToScene
    rcases List.mem_cons.mp hmem with heq | hin
    · have hno : sid ∉ rest.map (fun x => x.id) := by
        rw [heq]
        exact hhead
      rw [(appendShotToScene_eq_none_iff rest sid shot).mpr hno]
      rw [List.map_cons]
      have hrest_id : rest.map (fun x =>
          if x.id = sid then { x with shots := x.shots ++ [shot] } else x) = rest := by
        have hcongr : ∀ x ∈ rest,
            (if x.id = sid then { x with shots := x.shots ++ [shot] } else x) = x := by
          intro x hx
          rw [if_neg]
          intro hxe
          exact hno (by rw [← hxe]; exact List.mem_map_of_mem _ hx)
        calc rest.map _ = rest.map id := List.map_congr_left hcongr
          _ = rest := List.map_id rest
      rw [hrest_id]
      simp [heq]
    · have hne : ¬ sc.id = sid := by
        intro h0
        rw [h0] at hhead
        exact hhead hin
      rw [ih hnd' hin]
      simp [hne]

theorem storyboard_apply_ok (entries : List ShotEntry) :
    ∀ ctx : AnimationContext, (∀ e ∈ entries, e.scene_id ∈ sceneIds ctx) →
      (StoryboardStage.apply ctx entries).2 = none ∧
      sceneIds (StoryboardStage.apply ctx entries).1 = sceneIds ctx ∧
      ∀ l, StoryboardStage.apply ctx (entries ++ l) =
        StoryboardStage.apply (StoryboardStage.apply ctx entries).1 l := by
  induction entries with
  | nil =>
    intro ctx _
    exact ⟨rfl, rfl, fun l => rfl⟩
  | cons e rest ih =>
    intro ctx h
    have he : e.scene_id ∈ sceneIds ctx := h e (List.mem_cons_self e rest)
    cases hrec : appendShotToScene ctx.timeline.scenes e.scene_id (mkStoryboardShot e) with
    | none =>
      exact absurd ((appendShotToScene_eq_none_iff _ _ _).mp hrec) (by simpa [sceneIds] using he)
    | some scenes' =>
      have step : ∀ l, StoryboardStage.apply ctx (e :: l) =
          StoryboardStage.apply { ctx with timeline := { scenes := scenes' } } l := by
        intro l
        simp only [StoryboardStage.apply, hrec]
      have hids : sceneIds { ctx with timeline := { scenes := scenes' } } = sceneIds ctx :=
        appendShotToScene_preserves_ids _ _ _ scenes' hrec
      have hrest : ∀ x ∈ rest, x.scene_id ∈ sceneIds { ctx with timeline := { scenes := scenes' } } := by
        intro x hx
        rw [hids]
        exact h x (List.mem_cons_of_mem e hx)
      obtain ⟨h1, h2, h3⟩ := ih _ hrest
      refine ⟨?_, ?_, ?_⟩
      · rw [step rest]
        exact h1
      · rw [step rest, h2, hids]
      · intro l
        rw [show (e :: rest) ++ l = e :: (rest ++ l) from rfl, step (rest ++ l), h3 l, step rest]

theorem storyboard_abort (ctx : AnimationContext) (pre post : List ShotEntry) (bad : ShotEntry)
    (hpre : ∀ e ∈ pre, e.scene_id ∈ sceneIds ctx) (hbad : bad.scene_id ∉ sceneIds ctx) :
    StoryboardStage.apply ctx (pre ++ bad :: post) =
      ((StoryboardStage.apply ctx pre).1, some (.keyError bad.scene_id)) := by
  obtain ⟨h1, h2, h3⟩ := storyboard_apply_ok pre ctx hpre
  rw [h3 (bad :: post)]
  have hnone : appendShotToScene (StoryboardStage.apply ctx pre).1.timeline.scenes
      bad.scene_id (mkStoryboardShot bad) = none := by
    rw [appendShotToScene_eq_none_iff]
    have := h2
    unfold sceneIds at this
    rw [this]
    simpa [sceneIds] using hbad
  simp only [StoryboardStage.apply, hnone]

theorem storyboard_apply_shape (entries : List ShotEntry) :
    ∀ ctx : AnimationContext, (sceneIds ctx).Nodup →
      (∀ e ∈ entries, e.scene_id ∈ sceneIds ctx) →
      (StoryboardStage.apply ctx entries).1.timeline.scenes =
        ctx.timeline.scenes.map (fun sc =>
          { sc with shots :=
              sc.shots ++ (entries.filter (fun e => e.scene_id = sc.id)).map mkStoryboardShot }) := by
  induction entries with
  | nil =>
    intro ctx _ _
    show ctx.timeline.scenes = _
    have h : ctx.timeline.scenes.map (fun sc =>
        { sc with shots :=
            sc.shots ++ (([] : List ShotEntry).filter (fun e => e.scene_id = sc.id)).map mkStoryboardShot }) =
        ctx.timeline.scenes.map id :=
      List.map_congr_left (by intro sc _; simp)
    rw [h, List.map_id]
  | cons e rest ih =>
    intro ctx hnd h
    have he : e.scene_id ∈ sceneIds ctx := h e (List.mem_cons_self e rest)
    have happ := appendShotToScene_nodup ctx.timeline.scenes e.scene_id (mkStoryboardShot e)
      (by simpa [sceneIds] using hnd) (by simpa [sceneIds] using he)
    have step : StoryboardStage.apply ctx (e :: rest) =
        StoryboardStage.apply
          { ctx with timeline :=
              { scenes := ctx.timeline.scenes.map (fun sc =>
                  if sc.id = e.scene_id then { sc with shots := sc.shots ++ [mkStoryboardShot e] }
                  else sc) } }
          rest := by
      simp only [StoryboardStage.apply, happ]
    have hids : sceneIds
        { ctx with timeline :=
            { scenes := ctx.timeline.scenes.map (fun sc =>
                if sc.id = e.scene_id then { sc with shots := sc.shots ++ [mkStoryboardShot e] }
                else sc) } } = sceneIds ctx := by
      unfold sceneIds
      rw [List.map_map]
      apply List.map_congr_left
      intro sc _
      by_cases hsc : sc.id = e.scene_id <;> simp [Function.comp, hsc]
    rw [step, ih _ (by rw [hids]; exact hnd)
      (fun x hx => by rw [hids]; exact h x (List.mem_cons_of_mem e hx))]
    show (ctx.timeline.scenes.map _).map _ = _
    rw [List.map_map]
    apply List.map_congr_left
    intro sc _
    by_cases hm : e.scene_id = sc.id
    · have hm' : sc.id = e.scene_id := hm.symm
      simp only [Function.comp, if_pos hm']
      rw [List.filter_cons_of_pos (by simpa using hm), List.map_cons]
      simp [List.append_assoc]
    · have hm' : ¬ sc.id = e.scene_id := fun h0 => hm h0.symm
      simp only [Function.comp, if_neg hm']
      rw [List.filter_cons_of_neg (by simpa using hm)]

/-! ## Planning-stage lemmas -/

theorem planning_apply_ok (entries : List SceneEntry) :
    ∀ ctx : AnimationContext, (∀ s ∈ entries, s.id ≠ none ∧ s.description ≠ none) →
      (PlanningStage.apply ctx entries).2 = none ∧
      ∀ l, PlanningStage.apply ctx (entries ++ l) =
        PlanningStage.apply (PlanningStage.apply ctx entries).1 l := by
  induction entries with
  | nil =>
    intro ctx _
    exact ⟨rfl, fun l => rfl⟩
  | cons s rest ih =>
    intro ctx h
    have hs := h s (List.mem_cons_self s rest)
    cases hid : s.id with
    | none => exact absurd hid hs.1
    | some i =>
      cases hdesc : s.description with
      | none => exact absurd hdesc hs.2
      | some d =>
        have step : ∀ l, PlanningStage.apply ctx (s :: l) =
            PlanningStage.apply
              { ctx with timeline :=
                  { scenes := ctx.timeline.scenes ++ [{ id := i, description := d }] } } l := by
          intro l
          simp only [PlanningStage.apply, hid, hdesc]
        obtain ⟨h1, h2⟩ := ih _ (fun t ht => h t (List.mem_cons_of_mem s ht))
        refine ⟨by rw [step rest]; exact h1, fun l => ?_⟩
        rw [show (s :: rest) ++ l = s :: (rest ++ l) from rfl, step (rest ++ l), h2 l, step rest]

/-! ## Claim theorems: the stage pipeline -/

/-- The two-scene context used in the storyboard instances. -/
def sbCtx : AnimationContext :=
  { style := { visual_style := "cinematic", lighting := "dramatic", color_palette := "cold blue" },
    timeline := { scenes := [{ id := "scene_1", description := "intro" },
                             { id := "scene_2", description := "duel" }] } }

/-- A shot entry naming the existing scene `"scene_1"`. -/
def sbGood : ShotEntry :=
  { scene_id := "scene_1", shot_id := "shot_1", duration := 3, subject := "Hero",
    environment := "ruined city",
    camera := { shot_type := "wide", movement := "dolly in", lens := "35mm", angle := "eye-level" } }

/-- A shot entry naming the undeclared scene `"scene_X"`. -/
def sbBad : ShotEntry :=
  { scene_id := "scene_X", shot_id := "shot_2", duration := 2, subject := "Hero",
    environment := "ruined city",
    camera := { shot_type := "medium", movement := "pan", lens := "50mm", angle := "high" } }

/-- C8: a shot entry naming a scene id absent from the timeline makes
`StoryboardStage.apply` abort with a KeyError carrying that id, and the
aborted context is exactly the one produced by the entries before the
failing one — no partially-built shot for the failing entry is added.
Entries naming existing scene ids never abort, and (for a timeline with
distinct scene ids) each is appended to its scene's shot list in
payload order with placeholder motion fields. -/
theorem storyboard_unknown_scene_aborts :
    (∀ (ctx : AnimationContext) (pre post : List ShotEntry) (bad : ShotEntry),
      (∀ e ∈ pre, e.scene_id ∈ sceneIds ctx) → bad.scene_id ∉ sceneIds ctx →
      StoryboardStage.apply ctx (pre ++ bad :: post) =
        ((StoryboardStage.apply ctx pre).1, some (.keyError bad.scene_id))) ∧
    (∀ (ctx : AnimationContext) (entries : List ShotEntry),
      (∀ e ∈ entries, e.scene_id ∈ sceneIds ctx) →
      (StoryboardStage.apply ctx entries).2 = none) ∧
    (∀ (ctx : AnimationContext) (entries : List ShotEntry),
      (sceneIds ctx).Nodup → (∀ e ∈ entries, e.scene_id ∈ sceneIds ctx) →
      (StoryboardStage.apply ctx entries).1.timeline.scenes =
        ctx.timeline.scenes.map (fun sc =>
          { sc with shots :=
              sc.shots ++ (entries.filter (fun e => e.scene_id = sc.id)).map mkStoryboardShot })) := by
  refine ⟨?_, ?_, ?_⟩
  · intro ctx pre post bad hpre hbad
    exact storyboard_abort ctx pre post bad hpre hbad
  · intro ctx entries h
    exact (storyboard_apply_ok entries ctx h).1
  · intro ctx entries hnd h
    exact storyboard_apply_shape entries ctx hnd h

/-- C8 witness: on a two-scene timeline, `[sbGood, sbBad]` aborts with
`KeyError "scene_X"` leaving only the `sbGood` shot, appended to
`scene_1` with placeholder motion. -/
theorem storyboard_unknown_scene_aborts_witness :
    StoryboardStage.apply sbCtx [sbGood, sbBad] =
      ((StoryboardStage.apply sbCtx [sbGood]).1, some (.keyError "scene_X")) ∧
    (StoryboardStage.apply sbCtx [sbGood]).2 = none ∧
    (StoryboardStage.apply sbCtx [sbGood]).1.timeline.scenes =
      [{ id := "scene_1", description := "intro", shots := [mkStoryboardShot sbGood] },
       { id := "scene_2", description := "duel" }] := by
  have h := storyboard_unknown_scene_aborts
  refine ⟨?_, h.2.1 sbCtx [sbGood] (by decide), ?_⟩
  · exact h.1 sbCtx [sbGood] [] sbBad (by decide) (by decide)
  · rw [h.2.2 sbCtx [sbGood] (by decide) (by decide)]
    rfl

/-- C9 counterexample data: a planning payload whose second entry lacks
`"description"`, then a motion stage that should never run. -/
def c9Ctx : AnimationContext :=
  { style := { visual_style := "anime", lighting := "soft", color_palette := "warm orange" } }

/-- The stages of the C9 counterexample pipeline. -/
def c9Stages : List PipelineStage :=
  [.planning (some [{ id := some "scene_1", description := some "intro" },
                    { id := some "scene_2", description := none }]),
   .motion (some [])]

/-- C9 counterexample: a schema-non-conforming planning payload (second
scene entry missing `"description"`) aborts the stage and the pipeline,
but the failing stage does NOT leave the context unchanged — the first
entry's scene remains appended, so "no partial application of the
stage's delta" is false on the code. -/
theorem pipeline_partial_delta_persists :
    AnimationAgent.run c9Ctx c9Stages =
      ({ c9Ctx with timeline := { scenes := [{ id := "scene_1", description := "intro" }] } },
        some (.keyError "description")) ∧
    (AnimationAgent.run c9Ctx c9Stages).1 ≠ c9Ctx := by
  constructor
  · rfl
  · decide

/-- C9 (amended): a malformed generation result (JSON parse failure)
makes the stage raise before `apply` runs, leaving the context unchanged,
and any stage error aborts the pipeline with no skip-and-continue to
later stages; a schema-non-conforming planning payload (an entry missing
`"id"` or `"description"`) likewise raises and aborts, but the scenes
appended for entries before the offending one persist. -/
theorem stage_failure_aborts_amended :
    (∀ ctx, runStage (.planning none) ctx = (ctx, some (.parseFailure "planning"))) ∧
    (∀ ctx, runStage (.storyboard none) ctx = (ctx, some (.parseFailure "storyboard"))) ∧
    (∀ ctx, runStage (.motion none) ctx = (ctx, some (.parseFailure "motion"))) ∧
    (∀ (st : PipelineStage) (ctx : AnimationContext) (rest : List PipelineStage)
        (ctx' : AnimationContext) (e : StageError),
      runStage st ctx = (ctx', some e) →
      AnimationAgent.run ctx (st :: rest) = (ctx', some e)) ∧
    (∀ (ctx : AnimationContext) (pre post : List SceneEntry) (s : SceneEntry),
      (∀ t ∈ pre, t.id ≠ none ∧ t.description ≠ none) → s.id = none →
      PlanningStage.apply ctx (pre ++ s :: post) =
        ((PlanningStage.apply ctx pre).1, some (.keyError "id"))) ∧
    (∀ (ctx : AnimationContext) (pre post : List SceneEntry) (s : SceneEntry) (i : String),
      (∀ t ∈ pre, t.id ≠ none ∧ t.description ≠ none) → s.id = some i → s.description = none →
      PlanningStage.apply ctx (pre ++ s :: post) =
        ((PlanningStage.apply ctx pre).1, some (.keyError "description"))) := by
  refine ⟨fun ctx => rfl, fun ctx => rfl, fun ctx => rfl, ?_, ?_, ?_⟩
  · intro st ctx rest ctx' e h
    show (match runStage st ctx with
      | (c, none) => AnimationAgent.run c rest
      | (c, some err) => (c, some err)) = (ctx', some e)
    rw [h]
  · intro ctx pre post s hpre hsid
    obtain ⟨h1, h2⟩ := planning_apply_ok pre ctx hpre
    rw [h2 (s :: post)]
    simp only [PlanningStage.apply, hsid]
  · intro ctx pre post s i hpre hsid hdesc
    obtain ⟨h1, h2⟩ := planning_apply_ok pre ctx hpre
    rw [h2 (s :: post)]
    simp only [PlanningStage.apply, hsid, hdesc]

/-- C9 witness: the amended theorem applied at concrete inputs — parse
failure leaves the context untouched, the pipeline aborts at the failing
stage, and a planning entry missing `"id"` aborts after the entries
before it applied. -/
theorem stage_failure_aborts_amended_witness :
    runStage (.planning none) c9Ctx = (c9Ctx, some (.parseFailure "planning")) ∧
    AnimationAgent.run c9Ctx [.planning none, .motion (some [])] =
      (c9Ctx, some (.parseFailure "planning")) ∧
    PlanningStage.apply c9Ctx
        [{ id := some "scene_1", description := some "intro" },
         { id := none, description := some "x" }] =
      ((PlanningStage.apply c9Ctx [{ id := some "scene_1", description := some "intro" }]).1,
        some (.keyError "id")) := by
  have h := stage_failure_aborts_amended
  refine ⟨h.1 c9Ctx, ?_, ?_⟩
  · exact h.2.2.2.1 (.planning none) c9Ctx [.motion (some [])] c9Ctx
      (.parseFailure "planning") (h.1 c9Ctx)
  · exact h.2.2.2.2.1 c9Ctx [{ id := some "scene_1", description := some "intro" }] []
      { id := none, description := some "x" } (by decide) rfl

end Innovator
